import Mathlib

/-!
Verification of the screenshot-to-code client application shell
(frontend App component). The App component is embedded shallowly: React
state hooks become fields of an explicit state record, each handler or
callback becomes a pure state-transformer, and the asynchronous
generation round in flight is tracked by an explicit `pending` field
holding the values the source closures capture when the round starts.
-/

namespace ScreenshotToCode

/-- AppState from types.ts. -/
inductive AppState where
  | INITIAL
  | CODING
  | CODE_READY
deriving DecidableEq, Repr

/-- EditorTheme from types.ts. -/
inductive EditorTheme where
  | ESPRESSO
  | COBALT
deriving DecidableEq, Repr

/-- Modelled from the spec: the Stack enumeration lives in lib/stacks,
which is not among the provided files. Only the identifier
HTML_TAILWIND appears in the provided code; stacks are treated as
opaque string identifiers. -/
abbrev Stack : Type := String

/-- Modelled from the spec: the HTML_TAILWIND stack identifier from
lib/stacks, not among the provided files. -/
def Stack.HTML_TAILWIND : Stack := "html_tailwind"

/-- Settings from types.ts. -/
structure Settings where
  openAiApiKey : Option String
  openAiBaseURL : Option String
  screenshotOneApiKey : Option String
  isImageGenerationEnabled : Bool
  editorTheme : EditorTheme
  generatedCodeConfig : Stack
  isTermOfServiceAccepted : Bool
  accessCode : Option String
deriving DecidableEq, Repr

/-- The discriminants of the history item union used by App
(ai_create and ai_edit entries produced by the on-set-code callback,
code_create entries produced by importFromCode). -/
inductive HistoryItemType where
  | ai_create
  | ai_edit
  | code_create
deriving DecidableEq, Repr

/-- The inputs recorded on a history item: an image_url for ai_create,
a prompt for ai_edit, a code payload for code_create. Each variant of
the source union carries one of these fields; absent fields are none. -/
structure HistoryInputs where
  image_url : Option String := none
  prompt : Option String := none
  code : Option String := none
deriving DecidableEq, Repr

/-- One entry of the App edit history. -/
structure HistoryItem where
  type : HistoryItemType
  parentIndex : Option Nat
  code : String
  inputs : HistoryInputs
deriving DecidableEq, Repr

/-- History from components/history/history_types: an array of items. -/
abbrev History : Type := List HistoryItem

/-- The generationType field of CodeGenerationParams. -/
inductive GenerationType where
  | create
  | update
deriving DecidableEq, Repr

/-- CodeGenerationParams from types.ts. -/
structure CodeGenerationParams where
  generationType : GenerationType
  image : String
  resultImage : Option String := none
  history : Option (List String) := none
  isImportedFromCode : Option Bool := none
deriving DecidableEq, Repr

/-- The data a generation round in flight carries: the request
parameters, the parentVersion argument given to doGenerateCode, and the
values of updateInstruction and referenceImages[0] that the on-set-code
closure captured when doGenerateCode ran. -/
structure PendingGeneration where
  params : CodeGenerationParams
  parentVersion : Option Nat
  capturedInstruction : String
  capturedRefImage : Option String
deriving DecidableEq, Repr

/-- The state of the App component: one field per useState hook, plus
`pending`, which records the generation round in flight (none when no
round is streaming). -/
structure AppModel where
  appState : AppState
  generatedCode : String
  referenceImages : List String
  executionConsole : List String
  updateInstruction : String
  isImportedFromCode : Bool
  settings : Settings
  appHistory : History
  currentVersion : Option Nat
  shouldIncludeResultImage : Bool
  pending : Option PendingGeneration
deriving DecidableEq, Repr

/-- The default settings passed to usePersistedState. -/
def defaultSettings : Settings :=
  { openAiApiKey := none
    openAiBaseURL := none
    screenshotOneApiKey := none
    isImageGenerationEnabled := true
    editorTheme := EditorTheme.COBALT
    generatedCodeConfig := Stack.HTML_TAILWIND
    isTermOfServiceAccepted := true
    accessCode := none }

/-- The state after the initial render: every hook at its initial
value. -/
def initialModel : AppModel :=
  { appState := AppState.INITIAL
    generatedCode := ""
    referenceImages := []
    executionConsole := []
    updateInstruction := ""
    isImportedFromCode := false
    settings := defaultSettings
    appHistory := []
    currentVersion := none
    shouldIncludeResultImage := false
    pending := none }

/-- reset: sets every piece of component state back to its initial
value. It does not touch the websocket, so a round in flight stays in
flight. -/
def reset (s : AppModel) : AppModel :=
  { s with
    appState := AppState.INITIAL
    generatedCode := ""
    referenceImages := []
    executionConsole := []
    updateInstruction := ""
    isImportedFromCode := false
    appHistory := []
    currentVersion := none
    shouldIncludeResultImage := false }

/-- Modelled from the spec: USER_CLOSE_WEB_SOCKET_CODE is defined in
constants.ts, which is not among the provided files; it is the websocket
close code sent when the user cancels a generation. Its numeric value is
irrelevant to the claims, which only require that cancellation closes
the socket with this constant. -/
def USER_CLOSE_WEB_SOCKET_CODE : Nat := 4333

/-- A placeholder history item; only ever produced by an out-of-bounds
index, which the reachability invariant rules out. -/
def defaultHistoryItem : HistoryItem :=
  { type := HistoryItemType.ai_create
    parentIndex := none
    code := ""
    inputs := {} }

/-- Modelled from the spec: extractHistoryTree lives in
components/history/utils, which is not among the provided files. The
spec describes the history as a tree of edits with a notion of path
from root to current node, used to reconstruct an ordered instruction
sequence for the backend, and says its only failure mode is a thrown
error. We walk parent pointers from the given version back to the root,
requiring the version to exist and each parent index to be strictly
smaller than its child (a genuine tree path; this also gives
termination), and collect along the root-to-current path each item's
payload: the code for a creation entry, and the edit prompt followed by
the resulting code for an ai_edit entry. Any malformed step throws. -/
def extractHistoryTreeGo (history : History) :
    Nat → Nat → Except String (List String)
  | 0, _ => Except.error "Invalid history"
  | fuel + 1, version =>
    match history.get? version with
    | none => Except.error "Invalid version"
    | some item =>
      let payload : List String :=
        match item.type with
        | HistoryItemType.ai_edit => [item.inputs.prompt.getD "", item.code]
        | _ => [item.code]
      match item.parentIndex with
      | none => Except.ok payload
      | some p =>
        if p < version then
          match extractHistoryTreeGo history fuel p with
          | Except.ok ancestors => Except.ok (ancestors ++ payload)
          | Except.error e => Except.error e
        else Except.error "Invalid parent index"

/-- Modelled from the spec: the tree walk above started at the given
version; the fuel version + 1 always suffices because each step moves
to a strictly smaller index. -/
def extractHistoryTree (history : History) (version : Nat) :
    Except String (List String) :=
  extractHistoryTreeGo history (version + 1) version

/-- The contentWindow of the preview iframe; the document body may be
absent. The body is represented by its HTML content. -/
structure ContentWindow where
  body : Option String
deriving DecidableEq, Repr

/-- The preview iframe element, whose contentWindow may be absent. -/
structure IframeElement where
  contentWindow : Option ContentWindow
deriving DecidableEq, Repr

/-- takeScreenshot: guards on the preview-desktop iframe, its content
window and its document body all being present, returning the empty
string when any is absent; otherwise it renders the body to a PNG data
URL. The DOM query result is the first argument and html2canvas
composed with toDataURL is the second. -/
def takeScreenshot (iframeElement : Option IframeElement)
    (html2canvasPng : String → String) : String :=
  match iframeElement with
  | none => ""
  | some el =>
    match el.contentWindow with
    | none => ""
    | some w =>
      match w.body with
      | none => ""
      | some body => html2canvasPng body

/-- The chain iframeElement?.contentWindow?.document.body as one
Option. -/
def previewBody (iframeElement : Option IframeElement) : Option String :=
  (iframeElement.bind IframeElement.contentWindow).bind ContentWindow.body

/-- The download triggered by downloadCode: a blob with a MIME type,
saved under a file name. -/
structure DownloadArtifact where
  content : String
  mimeType : String
  fileName : String
deriving DecidableEq, Repr

/-- downloadCode: builds a text/html blob from generatedCode and
triggers its download as index.html; it calls no state setter. The
value is the artifact downloaded paired with the unchanged state. -/
def downloadCode (s : AppModel) : DownloadArtifact × AppModel :=
  ({ content := s.generatedCode
     mimeType := "text/html"
     fileName := "index.html" }, s)

/-- cancelCodeGenerationAndReset: when no version is current, resets the
whole app; otherwise restores generatedCode from the current version and
returns to CODE_READY. -/
def cancelCodeGenerationAndReset (s : AppModel) : AppModel :=
  match s.currentVersion with
  | none => reset s
  | some v =>
    { s with
      generatedCode := (s.appHistory.getD v defaultHistoryItem).code
      appState := AppState.CODE_READY }

/-- cancelCodeGeneration: closes the websocket with
USER_CLOSE_WEB_SOCKET_CODE when a socket object exists (the optional
chaining on wsRef), then corrects the state even if the socket was
already closed. The round in flight is abandoned. Returns the new state
and the close code sent, if any. -/
def cancelCodeGeneration (s : AppModel) (wsPresent : Bool) :
    AppModel × Option Nat :=
  (cancelCodeGenerationAndReset { s with pending := none },
   if wsPresent then some USER_CLOSE_WEB_SOCKET_CODE else none)

/-- doGenerateCode: clears the execution console, enters CODING, and
starts a generation round with the given params and parentVersion. The
on-set-code closure captures updateInstruction and referenceImages[0]
as they are now; these are recorded in the pending round. -/
def doGenerateCode (s : AppModel) (params : CodeGenerationParams)
    (parentVersion : Option Nat) : AppModel :=
  { s with
    executionConsole := []
    appState := AppState.CODING
    pending := some
      { params := params
        parentVersion := parentVersion
        capturedInstruction := s.updateInstruction
        capturedRefImage := s.referenceImages.head? } }

/-- doCreate: resets all state, stores the reference images, and when at
least one image was given starts a create generation from the first one.
The parentVersion argument is the currentVersion the closure captured
before the reset. -/
def doCreate (s : AppModel) (referenceImages : List String) : AppModel :=
  let s1 := { reset s with referenceImages := referenceImages }
  match referenceImages with
  | [] => s1
  | img :: _ =>
    doGenerateCode s1
      { generationType := GenerationType.create, image := img }
      s.currentVersion

/-- doUpdate: validates currentVersion and the extracted history tree,
reporting either failure as a toast and changing nothing; on success it
starts an update generation whose history is the tree with the current
updateInstruction appended (including a screenshot of the result when
the switch is on), then clears generatedCode and updateInstruction.
The screenshot argument stands for the awaited takeScreenshot result.
Returns the new state and the toast error message, if any. -/
def doUpdate (s : AppModel) (screenshot : String) :
    AppModel × Option String :=
  match s.currentVersion with
  | none =>
    (s, some "No current version set. Contact support or open a Github issue.")
  | some version =>
    match extractHistoryTree s.appHistory version with
    | Except.error _ =>
      (s, some "Version history is invalid. Please contact support or open a Github issue.")
    | Except.ok historyTree =>
      let updatedHistory := historyTree ++ [s.updateInstruction]
      let params : CodeGenerationParams :=
        if s.shouldIncludeResultImage then
          { generationType := GenerationType.update
            image := s.referenceImages.headD ""
            resultImage := some screenshot
            history := some updatedHistory
            isImportedFromCode := some s.isImportedFromCode }
        else
          { generationType := GenerationType.update
            image := s.referenceImages.headD ""
            history := some updatedHistory
            isImportedFromCode := some s.isImportedFromCode }
      let s1 := doGenerateCode s params (some version)
      ({ s1 with generatedCode := "", updateInstruction := "" }, none)

/-- The on-change streaming callback: appends the arriving token to
generatedCode through a functional setState update. -/
def onChangeToken (s : AppModel) (token : String) : AppModel :=
  { s with generatedCode := s.generatedCode ++ token }

/-- The on-set-code callback of a round p: stores the final code; for a
create round the history becomes a single ai_create entry and version 0
becomes current; for an update round an ai_edit entry carrying the
captured parentVersion and instruction is appended and becomes current,
unless parentVersion is null, in which case only a toast is shown and
the history is left as it was. Returns the new state and the toast, if
any. -/
def setCodeCallback (s : AppModel) (p : PendingGeneration)
    (code : String) : AppModel × Option String :=
  let s0 := { s with generatedCode := code }
  match p.params.generationType with
  | GenerationType.create =>
    ({ s0 with
       appHistory := ([{ type := HistoryItemType.ai_create
                         parentIndex := none
                         code := code
                         inputs := { image_url := p.capturedRefImage } }] : List HistoryItem)
       currentVersion := some 0 }, none)
  | GenerationType.update =>
    match p.parentVersion with
    | none =>
      (s0, some "No parent version set. Contact support or open a Github issue.")
    | some parentVersion =>
      let newHistory : List HistoryItem :=
        s0.appHistory ++
          [{ type := HistoryItemType.ai_edit
             parentIndex := some parentVersion
             code := code
             inputs := { prompt := some p.capturedInstruction } }]
      ({ s0 with
         appHistory := newHistory
         currentVersion := some (newHistory.length - 1) }, none)

/-- The on-complete callback: the round is over and the app shows the
finished code. -/
def completeGeneration (s : AppModel) : AppModel :=
  { s with appState := AppState.CODE_READY, pending := none }

/-- The on-status-update callback: appends a line to the execution
console. -/
def onStatusUpdate (s : AppModel) (line : String) : AppModel :=
  { s with executionConsole := s.executionConsole ++ [line] }

/-- revertToVersion (the callback given to HistoryDisplay): does nothing
for an index outside the history; otherwise makes that index current and
shows its code. The index is an integer to reflect the explicit
index < 0 guard. -/
def revertToVersion (s : AppModel) (index : Int) : AppModel :=
  if index < 0 ∨ s.appHistory.length ≤ index then s
  else
    { s with
      currentVersion := some index.toNat
      generatedCode :=
        (s.appHistory.getD index.toNat defaultHistoryItem).code }

/-- importFromCode: marks the project as imported, installs the given
code and stack, replaces the history with a single code_create root,
makes it current, and shows the code. -/
def importFromCode (s : AppModel) (code : String) (stack : Stack) : AppModel :=
  { s with
    isImportedFromCode := true
    generatedCode := code
    settings := { s.settings with generatedCodeConfig := stack }
    appHistory := ([{ type := HistoryItemType.code_create
                      parentIndex := none
                      code := code
                      inputs := { code := some code } }] : List HistoryItem)
    currentVersion := some 0
    appState := AppState.CODE_READY }

/-- The transitions of the App component. User-driven handlers carry
the guard under which their widget is rendered (reset, update,
instruction edits only in CODE_READY; create and import only in
INITIAL; reverts disabled while CODING); websocket callbacks require a
round in flight. -/
inductive Step : AppModel → AppModel → Prop where
  | resetButton (s : AppModel) (h : s.appState = AppState.CODE_READY) :
      Step s (reset s)
  | create (s : AppModel) (imgs : List String)
      (h : s.appState = AppState.INITIAL) :
      Step s (doCreate s imgs)
  | importCode (s : AppModel) (code : String) (stack : Stack)
      (h : s.appState = AppState.INITIAL) :
      Step s (importFromCode s code stack)
  | editInstruction (s : AppModel) (instr : String)
      (h : s.appState = AppState.CODE_READY) :
      Step s { s with updateInstruction := instr }
  | toggleResultImage (s : AppModel) (b : Bool)
      (h : s.appState = AppState.CODE_READY) :
      Step s { s with shouldIncludeResultImage := b }
  | editCode (s : AppModel) (code : String)
      (h : s.appState ≠ AppState.INITIAL) :
      Step s { s with generatedCode := code }
  | update (s : AppModel) (screenshot : String)
      (h : s.appState = AppState.CODE_READY) :
      Step s (doUpdate s screenshot).1
  | revert (s : AppModel) (index : Int)
      (h : s.appState ≠ AppState.CODING) :
      Step s (revertToVersion s index)
  | streamToken (s : AppModel) (p : PendingGeneration) (token : String)
      (h : s.pending = some p) :
      Step s (onChangeToken s token)
  | statusLine (s : AppModel) (p : PendingGeneration) (line : String)
      (h : s.pending = some p) :
      Step s (onStatusUpdate s line)
  | setCode (s : AppModel) (p : PendingGeneration) (code : String)
      (h : s.pending = some p) :
      Step s (setCodeCallback s p code).1
  | complete (s : AppModel) (p : PendingGeneration)
      (h : s.pending = some p) :
      Step s (completeGeneration s)
  | cancel (s : AppModel) (p : PendingGeneration) (ws : Bool)
      (h : s.pending = some p) :
      Step s (cancelCodeGeneration s ws).1

/-- The states the App component can be in, starting from the initial
render. -/
inductive Reachable : AppModel → Prop where
  | init : Reachable initialModel
  | step {s s' : AppModel} : Reachable s → Step s s' → Reachable s'

/-- What a well-placed history entry at index i looks like: its parent,
when present, is a strictly smaller index, creation entries are roots
and ai_edit entries are not. -/
def entryOK (i : Nat) (e : HistoryItem) : Prop :=
  (∀ p, e.parentIndex = some p → p < i) ∧
  (e.type = HistoryItemType.ai_create → e.parentIndex = none) ∧
  (e.type = HistoryItemType.code_create → e.parentIndex = none) ∧
  (e.type = HistoryItemType.ai_edit → e.parentIndex ≠ none)

/-- The history forms a tree: every entry is well placed at its
index. -/
def historyIsTree (h : History) : Prop :=
  ∀ i e, h[i]? = some e → entryOK i e

/-- The full inductive invariant: the history is a tree, the current
version indexes into the history, a pending update round's parent
version indexes into the history, and any round in flight means the app
is CODING. -/
def Inv (s : AppModel) : Prop :=
  historyIsTree s.appHistory ∧
  (∀ v, s.currentVersion = some v → v < s.appHistory.length) ∧
  (∀ p, s.pending = some p →
    p.params.generationType = GenerationType.update →
    ∀ pv, p.parentVersion = some pv → pv < s.appHistory.length) ∧
  (∀ p, s.pending = some p → s.appState = AppState.CODING)

/-- A concrete state used by the witnesses: a project imported from
code, with an edit instruction typed in. -/
def sampleImported : AppModel :=
  { importFromCode initialModel "<p>hi</p>" "html" with
    updateInstruction := "make it red" }

/-- The round in flight after doUpdate runs on sampleImported (its
result-image switch is off). -/
def samplePending : PendingGeneration :=
  { params :=
      { generationType := GenerationType.update
        image := ""
        resultImage := none
        history := some ["<p>hi</p>", "make it red"]
        isImportedFromCode := some true }
    parentVersion := some 0
    capturedInstruction := "make it red"
    capturedRefImage := none }

theorem historyIsTree_nil : historyIsTree [] := by
  intro i e h
  simp at h

theorem historyIsTree_singleton (e : HistoryItem)
    (h1 : e.parentIndex = none)
    (h2 : e.type ≠ HistoryItemType.ai_edit) : historyIsTree [e] := by
  intro i x hx
  cases i with
  | zero =>
    simp at hx
    subst hx
    refine ⟨?_, fun _ => h1, fun _ => h1, fun ha => absurd ha h2⟩
    intro p hp
    rw [h1] at hp
    exact absurd hp (by simp)
  | succ n =>
    simp at hx

theorem historyIsTree_append (h : History) (e : HistoryItem)
    (ht : historyIsTree h) (he : entryOK h.length e) :
    historyIsTree (h ++ [e]) := by
  intro i x hx
  by_cases hi : i < h.length
  · rw [List.getElem?_append_left hi] at hx
    exact ht i x hx
  · push_neg at hi
    rw [List.getElem?_append_right hi] at hx
    rcases Nat.lt_or_ge (i - h.length) 1 with hlt | hge
    · have h0 : i - h.length = 0 := Nat.lt_one_iff.mp hlt
      rw [h0] at hx
      simp at hx
      have hieq : i = h.length := by omega
      subst hx
      rw [hieq]
      exact he
    · have hnone : ([e] : List HistoryItem)[i - h.length]? = none := by
        apply List.getElem?_eq_none
        simpa using hge
      rw [hnone] at hx
      exact absurd hx (by simp)

theorem inv_initial : Inv initialModel := by
  refine ⟨historyIsTree_nil, ?_, ?_, ?_⟩
  · intro v hv
    simp [initialModel] at hv
  · intro p hp
    simp [initialModel] at hp
  · intro p hp
    simp [initialModel] at hp

theorem inv_preserved {s s' : AppModel} (st : Step s s') (hs : Inv s) :
    Inv s' := by
  obtain ⟨htree, hcv, hpend, hact⟩ := hs
  cases st with
  | resetButton h =>
    have hpn : s.pending = none := by
      cases hp : s.pending with
      | none => rfl
      | some p =>
        have hc := hact p hp
        rw [h] at hc
        exact absurd hc (by decide)
    refine ⟨?_, ?_, ?_, ?_⟩
    · simpa [reset] using historyIsTree_nil
    · intro v hv
      simp [reset] at hv
    · intro p hp
      simp [reset, hpn] at hp
    · intro p hp
      simp [reset, hpn] at hp
  | create imgs h =>
    have hpn : s.pending = none := by
      cases hp : s.pending with
      | none => rfl
      | some p =>
        have hc := hact p hp
        rw [h] at hc
        exact absurd hc (by decide)
    cases imgs with
    | nil =>
      refine ⟨?_, ?_, ?_, ?_⟩
      · simpa [doCreate, reset] using historyIsTree_nil
      · intro v hv
        simp [doCreate, reset] at hv
      · intro p hp
        simp [doCreate, reset, hpn] at hp
      · intro p hp
        simp [doCreate, reset, hpn] at hp
    | cons img rest =>
      refine ⟨?_, ?_, ?_, ?_⟩
      · simpa [doCreate, doGenerateCode, reset] using historyIsTree_nil
      · intro v hv
        simp [doCreate, doGenerateCode, reset] at hv
      · intro p hp hty
        simp [doCreate, doGenerateCode, reset] at hp
        rw [← hp] at hty
        simp at hty
      · intro p _
        simp [doCreate, doGenerateCode, reset]
  | importCode code stack h =>
    have hpn : s.pending = none := by
      cases hp : s.pending with
      | none => rfl
      | some p =>
        have hc := hact p hp
        rw [h] at hc
        exact absurd hc (by decide)
    refine ⟨?_, ?_, ?_, ?_⟩
    · simp only [importFromCode]
      exact historyIsTree_singleton _ rfl (by simp)
    · intro v hv
      simp [importFromCode] at hv
      simp [importFromCode, ← hv]
    · intro p hp
      simp [importFromCode, hpn] at hp
    · intro p hp
      simp [importFromCode, hpn] at hp
  | editInstruction instr h =>
    exact ⟨htree, hcv, hpend, hact⟩
  | toggleResultImage b h =>
    exact ⟨htree, hcv, hpend, hact⟩
  | editCode code h =>
    exact ⟨htree, hcv, hpend, hact⟩
  | update screenshot h =>
    cases hcur : s.currentVersion with
    | none =>
      simp only [doUpdate, hcur]
      exact ⟨htree, hcv, hpend, hact⟩
    | some version =>
      cases hext : extractHistoryTree s.appHistory version with
      | error e =>
        simp only [doUpdate, hcur, hext]
        exact ⟨htree, hcv, hpend, hact⟩
      | ok tree =>
        have hvlen : version < s.appHistory.length := hcv version hcur
        by_cases hinc : s.shouldIncludeResultImage
        all_goals
          refine ⟨?_, ?_, ?_, ?_⟩
          · simpa [doUpdate, hcur, hext, hinc, doGenerateCode] using htree
          · intro v hv
            simp [doUpdate, hcur, hext, hinc, doGenerateCode] at hv
            subst hv
            simpa [doUpdate, hcur, hext, hinc, doGenerateCode] using hvlen
          · intro p hp hty pv hpv
            simp [doUpdate, hcur, hext, hinc, doGenerateCode] at hp
            rw [← hp] at hpv
            simp at hpv
            simpa [doUpdate, hcur, hext, hinc, doGenerateCode, ← hpv]
              using hvlen
          · intro p _
            simp [doUpdate, hcur, hext, hinc, doGenerateCode]
  | revert index h =>
    by_cases hb : index < 0 ∨ (s.appHistory.length : Int) ≤ index
    · have hid : revertToVersion s index = s := by
        simp [revertToVersion, hb]
      rw [hid]
      exact ⟨htree, hcv, hpend, hact⟩
    · have hlt : index.toNat < s.appHistory.length := by
        push_neg at hb
        omega
      have heq : revertToVersion s index =
          { s with
            currentVersion := some index.toNat
            generatedCode :=
              (s.appHistory.getD index.toNat defaultHistoryItem).code } := by
        simp [revertToVersion, hb]
      rw [heq]
      refine ⟨htree, ?_, hpend, hact⟩
      intro v hv
      have hv2 : some index.toNat = some v := hv
      injection hv2 with hv3
      show v < s.appHistory.length
      omega
  | streamToken p token h =>
    exact ⟨htree, hcv, hpend, hact⟩
  | statusLine p line h =>
    exact ⟨htree, hcv, hpend, hact⟩
  | setCode p code h =>
    cases hty : p.params.generationType with
    | create =>
      refine ⟨?_, ?_, ?_, ?_⟩
      · simp only [setCodeCallback, hty]
        exact historyIsTree_singleton _ rfl (by simp)
      · intro v hv
        simp [setCodeCallback, hty] at hv
        simp [setCodeCallback, hty, ← hv]
      · intro q hq hqty
        simp [setCodeCallback, hty, h] at hq
        rw [← hq, hty] at hqty
        exact absurd hqty (by decide)
      · intro q hq
        simp [setCodeCallback, hty, h] at hq
        simpa [setCodeCallback, hty] using hact p h
    | update =>
      cases hpv : p.parentVersion with
      | none =>
        refine ⟨?_, ?_, ?_, ?_⟩
        · simpa [setCodeCallback, hty, hpv] using htree
        · intro v hv
          simp [setCodeCallback, hty, hpv] at hv ⊢
          exact hcv v hv
        · intro q hq hqty pv hqpv
          simp [setCodeCallback, hty, hpv] at hq ⊢
          exact hpend q hq hqty pv hqpv
        · intro q hq
          simp [setCodeCallback, hty, hpv] at hq ⊢
          exact hact q hq
      | some pv =>
        have hpvlen : pv < s.appHistory.length := hpend p h hty pv hpv
        refine ⟨?_, ?_, ?_, ?_⟩
        · simp only [setCodeCallback, hty, hpv]
          refine historyIsTree_append _ _ htree ⟨?_, ?_, ?_, ?_⟩
          · intro q hq
            simp at hq
            omega
          · intro hc
            simp at hc
          · intro hc
            simp at hc
          · intro _
            simp
        · intro v hv
          simp [setCodeCallback, hty, hpv] at hv
          simp [setCodeCallback, hty, hpv]
          omega
        · intro q hq hqty qv hqpv
          simp [setCodeCallback, hty, hpv, h] at hq
          rw [← hq] at hqpv
          rw [hpv] at hqpv
          simp at hqpv
          simp [setCodeCallback, hty, hpv]
          omega
        · intro q hq
          simp [setCodeCallback, hty, hpv, h] at hq
          simpa [setCodeCallback, hty, hpv] using hact p h
  | complete p h =>
    refine ⟨htree, hcv, ?_, ?_⟩
    · intro q hq
      simp [completeGeneration] at hq
    · intro q hq
      simp [completeGeneration] at hq
  | cancel p ws h =>
    cases hcur : s.currentVersion with
    | none =>
      refine ⟨?_, ?_, ?_, ?_⟩
      · simpa [cancelCodeGeneration, cancelCodeGenerationAndReset, hcur,
          reset] using historyIsTree_nil
      · intro v hv
        simp [cancelCodeGeneration, cancelCodeGenerationAndReset, hcur,
          reset] at hv
      · intro q hq
        simp [cancelCodeGeneration, cancelCodeGenerationAndReset, hcur,
          reset] at hq
      · intro q hq
        simp [cancelCodeGeneration, cancelCodeGenerationAndReset, hcur,
          reset] at hq
    | some v =>
      refine ⟨?_, ?_, ?_, ?_⟩
      · simpa [cancelCodeGeneration, cancelCodeGenerationAndReset, hcur]
          using htree
      · intro w hw
        simp [cancelCodeGeneration, cancelCodeGenerationAndReset, hcur]
          at hw ⊢
        have hvl := hcv v hcur
        omega
      · intro q hq
        simp [cancelCodeGeneration, cancelCodeGenerationAndReset, hcur]
          at hq
      · intro q hq
        simp [cancelCodeGeneration, cancelCodeGenerationAndReset, hcur]
          at hq

theorem inv_reachable {s : AppModel} (hr : Reachable s) : Inv s := by
  induction hr with
  | init => exact inv_initial
  | step _ st ih => exact inv_preserved st ih

/-- C1: in every reachable state of the App component the edit history
appHistory forms a tree: each entry's parentIndex is either null or a
strictly smaller index of an entry already present when it was
appended, ai_create and code_create entries have null parentIndex, and
ai_edit entries have non-null parentIndex; this is preserved by every
operation that writes appHistory (reset, the on-set-code callback for
create and update generations, and importFromCode), all of which are
transitions of the Step relation. -/
theorem appHistory_forms_tree {s : AppModel} (hr : Reachable s) :
    historyIsTree s.appHistory :=
  (inv_reachable hr).1

/-- Witness for C1 at a concrete reachable state: an import followed by
a completed update round. -/
theorem appHistory_forms_tree_witness :
    historyIsTree (importFromCode initialModel "<html/>" "html").appHistory :=
  appHistory_forms_tree
    (Reachable.step Reachable.init
      (Step.importCode initialModel "<html/>" "html" rfl))

/-- C5: every on-change streaming callback sets generatedCode to its
previous value concatenated with the arriving token, so a run of n
callbacks appends the n tokens in arrival order to the value at the
start of streaming. -/
theorem streaming_appends_tokens (s : AppModel) (token : String)
    (tokens : List String) :
    (onChangeToken s token).generatedCode = s.generatedCode ++ token ∧
    (tokens.foldl onChangeToken s).generatedCode =
      s.generatedCode ++ String.join tokens := by
  refine ⟨rfl, ?_⟩
  induction tokens generalizing s with
  | nil =>
    show s.generatedCode = s.generatedCode ++ String.join []
    apply String.ext
    simp
  | cons t ts ih =>
    show (ts.foldl onChangeToken (onChangeToken s t)).generatedCode = _
    rw [ih (onChangeToken s t)]
    show s.generatedCode ++ t ++ String.join ts =
      s.generatedCode ++ String.join (t :: ts)
    apply String.ext
    simp

/-- C7: downloadCode produces a text/html blob holding the current
generatedCode, downloaded under the name index.html, and leaves the
whole component state unchanged. -/
theorem downloadCode_spec (s : AppModel) :
    (downloadCode s).1.content = s.generatedCode ∧
    (downloadCode s).1.mimeType = "text/html" ∧
    (downloadCode s).1.fileName = "index.html" ∧
    (downloadCode s).2 = s :=
  ⟨rfl, rfl, rfl, rfl⟩

/-- C9: doCreate always resets all application state first; with an
empty image list no generation starts and the app stays INITIAL with
empty history and null currentVersion, while with a non-empty list a
create generation starts from exactly the first image and the app
enters CODING. -/
theorem doCreate_spec (s : AppModel) :
    ((doCreate s []).appState = AppState.INITIAL ∧
     (doCreate s []).appHistory = [] ∧
     (doCreate s []).currentVersion = none ∧
     (doCreate s []).generatedCode = "" ∧
     (doCreate s []).pending = s.pending) ∧
    ∀ (img : String) (rest : List String),
      (doCreate s (img :: rest)).appState = AppState.CODING ∧
      (doCreate s (img :: rest)).appHistory = [] ∧
      (doCreate s (img :: rest)).currentVersion = none ∧
      ∃ p, (doCreate s (img :: rest)).pending = some p ∧
        p.params.generationType = GenerationType.create ∧
        p.params.image = img := by
  refine ⟨⟨rfl, rfl, rfl, rfl, rfl⟩, ?_⟩
  intro img rest
  refine ⟨rfl, rfl, rfl, ?_⟩
  exact ⟨_, rfl, rfl, rfl⟩

/-- C10: takeScreenshot returns the empty string whenever the preview
iframe, its content window or its document body is absent, and
otherwise the PNG data URL rendered from the body. -/
theorem takeScreenshot_spec (iframeElement : Option IframeElement)
    (html2canvasPng : String → String) :
    (previewBody iframeElement = none →
      takeScreenshot iframeElement html2canvasPng = "") ∧
    ∀ body, previewBody iframeElement = some body →
      takeScreenshot iframeElement html2canvasPng =
        html2canvasPng body := by
  constructor
  · intro hnone
    cases iframeElement with
    | none => rfl
    | some el =>
      cases hw : el.contentWindow with
      | none => simp [takeScreenshot, hw]
      | some w =>
        cases hbody : w.body with
        | none => simp [takeScreenshot, hw, hbody]
        | some body =>
          simp [previewBody, hw, hbody] at hnone
  · intro body hsome
    cases iframeElement with
    | none => simp [previewBody] at hsome
    | some el =>
      cases hw : el.contentWindow with
      | none => simp [previewBody, hw] at hsome
      | some w =>
        cases hbody : w.body with
        | none => simp [previewBody, hw, hbody] at hsome
        | some b =>
          simp [previewBody, hw, hbody] at hsome
          simp [takeScreenshot, hw, hbody, hsome]

/-- Witness for C10: both an absent preview and a present one. -/
theorem takeScreenshot_spec_witness :
    takeScreenshot none (fun b => "data:image/png;" ++ b) = "" ∧
    takeScreenshot (some ⟨some ⟨some "body"⟩⟩)
      (fun b => "data:image/png;" ++ b) = "data:image/png;body" :=
  ⟨(takeScreenshot_spec none _).1 rfl,
   (takeScreenshot_spec (some ⟨some ⟨some "body"⟩⟩) _).2 "body" rfl⟩

/-- C2: when doUpdate runs with a non-null currentVersion and
extractHistoryTree succeeds, the history array carried by the
generation request is exactly the extracted root-to-current
instruction sequence with the current updateInstruction appended as
its last element. -/
theorem doUpdate_sends_path_plus_instruction
    (s : AppModel) (screenshot : String) (version : Nat)
    (tree : List String)
    (hv : s.currentVersion = some version)
    (ht : extractHistoryTree s.appHistory version = Except.ok tree) :
    ∃ p, (doUpdate s screenshot).1.pending = some p ∧
      p.params.generationType = GenerationType.update ∧
      p.params.history = some (tree ++ [s.updateInstruction]) := by
  by_cases hinc : s.shouldIncludeResultImage = true <;>
    simp [doUpdate, hv, ht, hinc, doGenerateCode]

/-- Witness for C2: the update request of sampleImported carries the
imported code followed by the typed instruction. -/
theorem doUpdate_sends_path_plus_instruction_witness :
    ∃ p, (doUpdate sampleImported "shot").1.pending = some p ∧
      p.params.generationType = GenerationType.update ∧
      p.params.history = some (["<p>hi</p>"] ++ ["make it red"]) :=
  doUpdate_sends_path_plus_instruction sampleImported "shot" 0
    ["<p>hi</p>"] rfl rfl

/-- C3: when the on-set-code callback of an update round fires, exactly
one ai_edit entry is appended at the end of appHistory, carrying the
final code, the version that was current when the update started as
parentIndex, and the edit instruction as inputs.prompt; currentVersion
becomes the new array length minus one, and no toast is raised. -/
theorem updateRound_appends_ai_edit
    (s s2 : AppModel) (screenshot code : String) (version : Nat)
    (tree : List String) (p : PendingGeneration)
    (hv : s.currentVersion = some version)
    (ht : extractHistoryTree s.appHistory version = Except.ok tree)
    (hp : (doUpdate s screenshot).1.pending = some p) :
    (setCodeCallback s2 p code).1.appHistory =
      s2.appHistory ++
        [{ type := HistoryItemType.ai_edit
           parentIndex := some version
           code := code
           inputs := { prompt := some s.updateInstruction } }] ∧
    (setCodeCallback s2 p code).1.currentVersion =
      some ((setCodeCallback s2 p code).1.appHistory.length - 1) ∧
    (setCodeCallback s2 p code).1.generatedCode = code ∧
    (setCodeCallback s2 p code).2 = none := by
  by_cases hinc : s.shouldIncludeResultImage = true <;>
    simp [doUpdate, hv, ht, hinc, doGenerateCode] at hp <;>
    subst hp <;>
    simp [setCodeCallback]

/-- Witness for C3: completing an update on sampleImported appends the
ai_edit entry for the new code. -/
theorem updateRound_appends_ai_edit_witness :
    (setCodeCallback (doUpdate sampleImported "shot").1 samplePending
        "<p>bye</p>").1.appHistory =
      (doUpdate sampleImported "shot").1.appHistory ++
        [{ type := HistoryItemType.ai_edit
           parentIndex := some 0
           code := "<p>bye</p>"
           inputs := { prompt := some "make it red" } }] :=
  (updateRound_appends_ai_edit sampleImported
    (doUpdate sampleImported "shot").1 "shot" "<p>bye</p>" 0
    ["<p>hi</p>"] samplePending rfl rfl rfl).1

/-- C4: doUpdate fails atomically: with a null currentVersion, or when
extractHistoryTree throws, it reports the failure only as a toast,
leaves the state (history, current version, generated code, update
instruction, app state, pending round) completely unchanged, and
starts no generation. -/
theorem doUpdate_fails_atomically
    (s : AppModel) (screenshot : String)
    (hfail : s.currentVersion = none ∨
      ∃ version e, s.currentVersion = some version ∧
        extractHistoryTree s.appHistory version = Except.error e) :
    (doUpdate s screenshot).1 = s ∧
    ∃ m, (doUpdate s screenshot).2 = some m := by
  rcases hfail with hnone | ⟨version, e, hv, he⟩
  · simp [doUpdate, hnone]
  · simp [doUpdate, hv, he]

/-- Witness for C4: the initial state has no current version, so
doUpdate changes nothing and toasts. -/
theorem doUpdate_fails_atomically_witness :
    (doUpdate initialModel "shot").1 = initialModel ∧
    ∃ m, (doUpdate initialModel "shot").2 = some m :=
  doUpdate_fails_atomically initialModel "shot" (Or.inl rfl)

/-- C6: revertToVersion is a no-op for an index outside the history;
for a valid index it makes that index current and shows its code,
reading only in bounds and leaving appHistory unchanged. -/
theorem revertToVersion_spec (s : AppModel) (index : Int) :
    ((index < 0 ∨ (s.appHistory.length : Int) ≤ index) →
      revertToVersion s index = s) ∧
    ∀ (hlt : index.toNat < s.appHistory.length), 0 ≤ index →
      (revertToVersion s index).currentVersion = some index.toNat ∧
      (revertToVersion s index).generatedCode =
        (s.appHistory.get ⟨index.toNat, hlt⟩).code ∧
      (revertToVersion s index).appHistory = s.appHistory := by
  constructor
  · intro hout
    simp [revertToVersion, hout]
  · intro hlt hge
    have hb : ¬(index < 0 ∨ (s.appHistory.length : Int) ≤ index) := by
      push_neg
      omega
    refine ⟨?_, ?_, ?_⟩
    · simp [revertToVersion, hb]
    · simp [revertToVersion, hb]
      simp [List.getElem?_eq_getElem hlt]
    · simp [revertToVersion, hb]

/-- Witness for C6: index 7 is out of range of the one-entry history of
sampleImported and reverts nothing; index 0 is valid and restores the
imported code. -/
theorem revertToVersion_spec_witness :
    revertToVersion sampleImported 7 = sampleImported ∧
    (revertToVersion sampleImported 0).generatedCode = "<p>hi</p>" :=
  ⟨(revertToVersion_spec sampleImported 7).1 (Or.inr (by decide)),
   (((revertToVersion_spec sampleImported 0).2 (by decide)
      (by norm_num)).2).1⟩

/-- C8: cancelCodeGeneration closes the websocket with
USER_CLOSE_WEB_SOCKET_CODE when a socket exists and, in every case:
with a null currentVersion it resets the app to INITIAL with empty
history and empty generated code; otherwise it restores generatedCode
from appHistory[currentVersion], sets CODE_READY, and leaves appHistory
and currentVersion unchanged. -/
theorem cancelCodeGeneration_spec (s : AppModel) (wsPresent : Bool) :
    ((cancelCodeGeneration s wsPresent).2 =
      if wsPresent then some USER_CLOSE_WEB_SOCKET_CODE else none) ∧
    (s.currentVersion = none →
      (cancelCodeGeneration s wsPresent).1.appState = AppState.INITIAL ∧
      (cancelCodeGeneration s wsPresent).1.appHistory = [] ∧
      (cancelCodeGeneration s wsPresent).1.generatedCode = "" ∧
      (cancelCodeGeneration s wsPresent).1.currentVersion = none) ∧
    ∀ (v : Nat) (hlt : v < s.appHistory.length),
      s.currentVersion = some v →
      (cancelCodeGeneration s wsPresent).1.generatedCode =
        (s.appHistory.get ⟨v, hlt⟩).code ∧
      (cancelCodeGeneration s wsPresent).1.appState =
        AppState.CODE_READY ∧
      (cancelCodeGeneration s wsPresent).1.appHistory = s.appHistory ∧
      (cancelCodeGeneration s wsPresent).1.currentVersion = some v := by
  refine ⟨rfl, ?_, ?_⟩
  · intro hnone
    refine ⟨?_, ?_, ?_, ?_⟩ <;>
      simp [cancelCodeGeneration, cancelCodeGenerationAndReset, hnone,
        reset]
  · intro v hlt hv
    refine ⟨?_, ?_, ?_, ?_⟩ <;>
      simp [cancelCodeGeneration, cancelCodeGenerationAndReset, hv]
    simp [List.getElem?_eq_getElem hlt]

/-- Witness for C8: cancelling from the initial state resets; cancelling
on sampleImported (with the socket already gone) restores the imported
code and CODE_READY. -/
theorem cancelCodeGeneration_spec_witness :
    (cancelCodeGeneration initialModel true).1.appState =
      AppState.INITIAL ∧
    (cancelCodeGeneration sampleImported false).1.generatedCode =
      "<p>hi</p>" :=
  ⟨((cancelCodeGeneration_spec initialModel true).2.1 rfl).1,
   ((cancelCodeGeneration_spec sampleImported false).2.2 0
      (by decide) rfl).1⟩

end ScreenshotToCode
